import Mathlib

/-!
# AnimationDemo (extras/Demo/Source/Demos/AnimationDemo.cpp)

A shallow embedding of the state-changing logic of the JUCE animation demo:
the ball simulation (`BallComponent::step`), the scene tick
(`AnimationDemo::timerCallback`) and the click handler
(`AnimationDemo::buttonClicked`).

Modelling conventions.

* `float` values are exact rationals (`ℚ`); rounding is outside the model.
* `int` values are mathematical integers together with an explicit range
  check: an operation whose exact result leaves `[INT_MIN, INT_MAX]`
  (undefined behaviour in C++) yields `none`.  `%` is the truncating C++
  remainder, `Int.tmod`.
* `OwnedArray` is a `List`; `getUnchecked` outside the array is `none`.
* The system random generator is an explicit state threaded through the
  code (`RandomSource`).
* Painting, widget bounds and the component tree are toolkit state and are
  not part of the model; of the parent component only its size is used.
-/

namespace JuceDemo

/-! ## Points and balls -/

/-- The toolkit's `Point<float>`. -/
@[ext]
structure Point where
  x : ℚ
  y : ℚ
  deriving DecidableEq, Repr

/-- Component-wise sum, `Point::operator+`. -/
def Point.add (p q : Point) : Point := ⟨p.x + q.x, p.y + q.y⟩

instance : Add Point := ⟨Point.add⟩

/-- Data members of `struct BallComponent`: `position`, `speed`, `colour`
(the colour as its ARGB value). -/
structure BallComponent where
  position : Point
  speed : Point
  colour : Nat
  deriving DecidableEq, Repr

/-- Size of a parent component, `(getWidth(), getHeight())`. -/
abbrev ParentSize := Int × Int

/-- Modelled from the spec: the toolkit helper `isPositiveAndBelow (v, limit)`
is not part of this source file; the spec describes the accepted range as
`[0, limit)`. -/
def isPositiveAndBelow (valueToTest upperLimit : ℚ) : Bool :=
  decide (0 ≤ valueToTest) && decide (valueToTest < upperLimit)

/-- The gravity constant `0.1f` added to `speed.y` on every step. -/
def gravity : ℚ := 1 / 10

/-- The method `BallComponent::step`.  `parent` is the size of the parent
component when there is one (`getParentComponent()` non-null).  Returns the
mutated ball and the `bool` result. -/
def BallComponent.step (parent : Option ParentSize) (b : BallComponent) :
    BallComponent × Bool :=
  let position := b.position + b.speed
  let speed : Point := ⟨b.speed.x, b.speed.y + gravity⟩
  let b' : BallComponent := { b with position := position, speed := speed }
  match parent with
  | some (w, h) =>
      (b', isPositiveAndBelow position.x (w : ℚ) && decide (position.y < (h : ℚ)))
  | none =>
      (b', decide (position.y < 400) && decide (position.x ≥ -10))

/-! ## Random source -/

/-- The system random generator (`Random::getSystemRandom()`), as an explicit
state of type `σ`: `nextInt g n` is `nextInt (n)` and `nextFloat g` is
`nextFloat()`, each returning the drawn value and the next state. -/
structure RandomSource (σ : Type) where
  nextInt : σ → Int → Int × σ
  nextFloat : σ → ℚ × σ

/-- A replayable random source for concrete runs: the state is the list of raw
draws still to come; `nextInt n` is the next raw draw reduced modulo `n`,
`nextFloat` is the next raw draw in thousandths, and an exhausted list
draws zero. -/
def streamRandom : RandomSource (List Nat) where
  nextInt := fun g n => (((g.headD 0 : Nat) : Int) % n, g.tail)
  nextFloat := fun g => ((((g.headD 0) % 1000 : Nat) : ℚ) / 1000, g.tail)

/-- The colour `Colours::white`. -/
def white : Nat := 0xffffffff

/-- The constructor `BallComponent::BallComponent (pos)`: two floats are drawn
for the speed, the colour is white, and the constructor body calls `step()`
once; the new component has no parent yet and the result of that call is
discarded.  C++ leaves the order of the two draws open; the draw for
`speed.x` is taken first. -/
def BallComponent.construct {σ : Type} (R : RandomSource σ) (g : σ) (pos : Point) :
    BallComponent × σ :=
  let (f1, g1) := R.nextFloat g
  let (f2, g2) := R.nextFloat g1
  let b : BallComponent :=
    { position := pos, speed := ⟨f1 * 4 - 2, f2 * (-6) - 2⟩, colour := white }
  ((b.step none).1, g2)

/-! ## The scene -/

/-- A button of the scene; only its component name is kept. -/
structure Button where
  name : String
  deriving DecidableEq, Repr

/-- The method `AnimationDemo::createButton`. -/
def createButton : Button := ⟨"ImageButton"⟩

/-- State of `class AnimationDemo`: its size, `componentsToAnimate`, `balls`,
the centre of the bounds of `ballGenerator` (the value of
`ballGenerator.getBounds().getCentre().toFloat()`) and `cycleCount`. -/
structure AnimationDemo where
  width : Int
  height : Int
  componentsToAnimate : List Button
  balls : List BallComponent
  ballGeneratorCentre : Point
  cycleCount : Int
  deriving DecidableEq, Repr

/-! ### Ball update loop -/

/-- The loop `for (int i = balls.size(); --i >= 0;)` of `timerCallback`, entered
with the counter at `i` (before the decrement).  The second component records
every call `balls.getUnchecked(i)->step()` as the index used and the ball
found there before the call, in call order.  `OwnedArray::remove (i)` is
`List.eraseIdx`. -/
def updateBallsFrom (parent : Option ParentSize) :
    Nat → List BallComponent → List (Nat × BallComponent) →
      Option (List BallComponent × List (Nat × BallComponent))
  | 0, balls, calls => some (balls, calls)
  | i + 1, balls, calls =>
    match balls[i]? with
    | none => none
    | some b =>
      let r := b.step parent
      let balls' := balls.set i r.1
      if r.2 then updateBallsFrom parent i balls' (calls ++ [(i, b)])
      else updateBallsFrom parent i (balls'.eraseIdx i) (calls ++ [(i, b)])

/-- The ball-update phase of `timerCallback`: the loop started at
`balls.size()`. -/
def updateBalls (parent : Option ParentSize) (balls : List BallComponent) :
    Option (List BallComponent × List (Nat × BallComponent)) :=
  updateBallsFrom parent balls.length balls []

/-- The description of the ball-update phase in words: step every ball, keep
those whose step returned `true`. -/
def stepThenFilter (parent : Option ParentSize) (balls : List BallComponent) :
    List BallComponent :=
  ((balls.map (BallComponent.step parent)).filter (fun r => r.2)).map (fun r => r.1)

/-- The method `AnimationDemo::timerCallback`: update the balls, then draw
`nextInt (100)` and, when the draw is below 4, construct a ball at the
generator centre and append it.  Balls in the list have the scene as
parent. -/
def timerCallback {σ : Type} (R : RandomSource σ) (g : σ) (s : AnimationDemo) :
    Option (AnimationDemo × σ) :=
  match updateBalls (some (s.width, s.height)) s.balls with
  | none => none
  | some (balls, _) =>
    let (d, g1) := R.nextInt g 100
    if d < 4 then
      let (ball, g2) := BallComponent.construct R g1 s.ballGeneratorCentre
      some ({ s with balls := balls ++ [ball] }, g2)
    else
      some ({ s with balls := balls }, g1)

/-! ### Click handling -/

/-- Largest value of `int`. -/
def INT_MAX : Int := 2147483647

/-- Smallest value of `int`. -/
def INT_MIN : Int := -2147483648

/-- Whether an exact integer result is representable as `int`. -/
def fitsInt (z : Int) : Bool := decide (INT_MIN ≤ z) && decide (z ≤ INT_MAX)

/-- The value of `(i + 3 * cycleCount) % componentsToAnimate.size()` with the
truncating C++ remainder. -/
def newIndex (i cycleCount size : Int) : Int := (i + 3 * cycleCount).tmod size

/-- A call `animator.animateComponent (componentsToAnimate.getUnchecked (i), ...)`:
the index of the button and the slot `newIndex` from which its target
rectangle and duration are computed. -/
structure AnimateRequest where
  component : Nat
  newIndex : Int
  deriving DecidableEq, Repr

/-- The body of the loop of `buttonClicked` run for the indices `is` in order;
`none` when `3 * cycleCount` or `i + 3 * cycleCount` overflows or the
remainder is taken by zero. -/
def animateAll (cycleCount size : Int) : List Nat → Option (List AnimateRequest)
  | [] => some []
  | i :: is =>
    if fitsInt (3 * cycleCount) && fitsInt ((i : Int) + 3 * cycleCount) && decide (size ≠ 0) then
      match animateAll cycleCount size is with
      | none => none
      | some reqs => some (⟨i, newIndex i cycleCount size⟩ :: reqs)
    else none

/-- The method `AnimationDemo::buttonClicked`: one animation request per
button, for `i = 0, ..., size - 1`, then `cycleCount++`.  Returns the new
state and the requests sent to the animator; `none` when an `int` operation
overflows. -/
def buttonClicked (s : AnimationDemo) : Option (AnimationDemo × List AnimateRequest) :=
  let size := s.componentsToAnimate.length
  match animateAll s.cycleCount size (List.range size) with
  | none => none
  | some reqs =>
    if fitsInt (s.cycleCount + 1) then
      some ({ s with cycleCount := s.cycleCount + 1 }, reqs)
    else none

/-- The state after `n` clicks. -/
def clicks : Nat → AnimationDemo → Option AnimationDemo
  | 0, s => some s
  | n + 1, s =>
    match buttonClicked s with
    | none => none
    | some (s', _) => clicks n s'

/-- The slot requested for button `i` by the click that follows `n` earlier
clicks: the `newIndex` of the `i`-th request of that click, which is the
request for button `i`; `none` when one of the clicks has no result. -/
def slotAtClick (n : Nat) (s : AnimationDemo) (i : Nat) : Option Int :=
  match clicks n s with
  | none => none
  | some s' =>
    match buttonClicked s' with
    | none => none
    | some (_, reqs) => (reqs[i]?).map (fun r => r.newIndex)

/-- The constructor `AnimationDemo::AnimationDemo`: size 620 × 620, eleven
buttons, the ball generator centred in the scene (`centreWithSize (80, 50)`),
`cycleCount = 2`, and the initial layout requests with slot
`(i + 3) % size`. -/
def AnimationDemo.construct : AnimationDemo × List AnimateRequest :=
  let buttons := List.replicate 11 createButton
  let size : Int := buttons.length
  ({ width := 620, height := 620, componentsToAnimate := buttons, balls := [],
     ballGeneratorCentre := ⟨310, 310⟩, cycleCount := 2 },
   (List.range buttons.length).map (fun i => ⟨i, ((i : Int) + 3).tmod size⟩))

/-! ### Runs of several ticks -/

/-- The number of balls the spawn phase of a tick appended: the length of the
ball list after the tick minus the number of balls the update phase kept. -/
def spawnedBy {σ : Type} (R : RandomSource σ) (g : σ) (s : AnimationDemo) : Option Nat :=
  match updateBalls (some (s.width, s.height)) s.balls, timerCallback R g s with
  | some (kept, _), some (s', _) => some (s'.balls.length - kept.length)
  | _, _ => none

/-- Runs `n` consecutive calls of `timerCallback`.  Besides the final scene and
generator state, the run reports for every tick, in order, the integer the
tick drew from `nextInt (100)` and the number of balls it spawned. -/
def runTicks {σ : Type} (R : RandomSource σ) :
    Nat → σ → AnimationDemo → Option (AnimationDemo × σ × List (Int × Nat))
  | 0, g, s => some (s, g, [])
  | n + 1, g, s =>
    match spawnedBy R g s, timerCallback R g s with
    | some k, some (s', g') =>
      match runTicks R n g' s' with
      | some (sf, gf, log) => some (sf, gf, ((R.nextInt g 100).1, k) :: log)
      | none => none
    | _, _ => none

/-! ## Theorems -/

/-- First coordinate of a sum of points. -/
@[simp]
theorem Point.add_x (p q : Point) : (p + q).x = p.x + q.x := rfl

/-- Second coordinate of a sum of points. -/
@[simp]
theorem Point.add_y (p q : Point) : (p + q).y = p.y + q.y := rfl

/-- Stepping and filtering a list extended by one ball. -/
theorem stepThenFilter_append (parent : Option ParentSize) (pre post : List BallComponent) :
    stepThenFilter parent (pre ++ post) =
      stepThenFilter parent pre ++ stepThenFilter parent post := by
  simp [stepThenFilter]

/-- Invariant of the reverse loop: with the counter at `pre.length`, the balls
before the counter are untouched and those after it are final. -/
theorem updateBallsFrom_append (parent : Option ParentSize) (pre : List BallComponent) :
    ∀ (post : List BallComponent) (calls : List (Nat × BallComponent)),
      updateBallsFrom parent pre.length (pre ++ post) calls =
        some (stepThenFilter parent pre ++ post, calls ++ pre.enum.reverse) := by
  induction pre using List.reverseRecOn with
  | nil => intro post calls; simp [updateBallsFrom, stepThenFilter]
  | append_singleton p b ih =>
    intro post calls
    have hlen : (p ++ [b]).length = p.length + 1 := by simp
    have hget : (p ++ [b] ++ post)[p.length]? = some b := by
      rw [List.append_assoc, List.getElem?_append_right (Nat.le_refl _)]
      simp
    have hset : (p ++ [b] ++ post).set p.length (b.step parent).1 =
        p ++ ((b.step parent).1 :: post) := by
      simp [List.set_append_right]
    have herase : (p ++ ((b.step parent).1 :: post)).eraseIdx p.length = p ++ post := by
      rw [List.eraseIdx_append_of_length_le (Nat.le_refl _)]
      simp
    have henum : (p ++ [b]).enum.reverse = (p.length, b) :: p.enum.reverse := by
      simp [List.enum_append, List.enumFrom_cons]
    rw [hlen, updateBallsFrom, hget]
    simp only [hset, herase, henum]
    by_cases hok : (b.step parent).2 = true
    · simp [hok, ih, stepThenFilter_append, stepThenFilter]
    · simp [hok, ih, stepThenFilter_append, stepThenFilter]

/-- The ball-update phase always succeeds and is `stepThenFilter`. -/
theorem updateBalls_eq (parent : Option ParentSize) (balls : List BallComponent) :
    updateBalls parent balls = some (stepThenFilter parent balls, balls.enum.reverse) := by
  have h := updateBallsFrom_append parent balls [] []
  simpa [updateBalls] using h

/-- Membership in the kept list. -/
theorem mem_stepThenFilter (parent : Option ParentSize) (balls : List BallComponent)
    (b' : BallComponent) :
    b' ∈ stepThenFilter parent balls ↔
      ∃ b ∈ balls, (b.step parent).2 = true ∧ (b.step parent).1 = b' := by
  simp only [stepThenFilter, List.mem_map, List.mem_filter]
  constructor
  · rintro ⟨r, ⟨⟨b, hb, rfl⟩, hr⟩, rfl⟩
    exact ⟨b, hb, hr, rfl⟩
  · rintro ⟨b, hb, hr, rfl⟩
    exact ⟨b.step parent, ⟨⟨b, hb, rfl⟩, hr⟩, rfl⟩

/-- With a parent, a successful step ends inside the parent. -/
theorem step_parent_true_iff (b : BallComponent) (w h : Int) :
    (b.step (some (w, h))).2 = true ↔
      (0 ≤ (b.step (some (w, h))).1.position.x ∧
       (b.step (some (w, h))).1.position.x < (w : ℚ) ∧
       (b.step (some (w, h))).1.position.y < (h : ℚ)) := by
  simp [BallComponent.step, isPositiveAndBelow, and_assoc]

/-- Every kept ball lies inside the parent. -/
theorem stepThenFilter_bounds (w h : Int) (balls : List BallComponent)
    (b' : BallComponent) (hb : b' ∈ stepThenFilter (some (w, h)) balls) :
    0 ≤ b'.position.x ∧ b'.position.x < (w : ℚ) ∧ b'.position.y < (h : ℚ) := by
  obtain ⟨b, _, hok, rfl⟩ := (mem_stepThenFilter _ _ _).1 hb
  exact (step_parent_true_iff b w h).1 hok

/-- C1: one `step` adds the old velocity to the position (both coordinates),
adds 0.1 to the vertical velocity and leaves the horizontal velocity
unchanged, whatever the parent. -/
theorem step_integrates (parent : Option ParentSize) (b : BallComponent) :
    (b.step parent).1.position = b.position + b.speed ∧
    (b.step parent).1.position.x = b.position.x + b.speed.x ∧
    (b.step parent).1.position.y = b.position.y + b.speed.y ∧
    (b.step parent).1.speed.y = b.speed.y + 1 / 10 ∧
    (b.step parent).1.speed.x = b.speed.x := by
  cases parent <;> simp [BallComponent.step, gravity]

/-- C2: `step` returns `true` exactly when the new position is inside the
window: with a parent of size `w × h`, `0 ≤ x' < w` and `y' < h`; without a
parent, `x' ≥ -10` and `y' < 400`. -/
theorem step_result_iff (b : BallComponent) :
    (∀ w h : Int, (b.step (some (w, h))).2 = true ↔
      (0 ≤ (b.step (some (w, h))).1.position.x ∧
       (b.step (some (w, h))).1.position.x < (w : ℚ) ∧
       (b.step (some (w, h))).1.position.y < (h : ℚ))) ∧
    ((b.step none).2 = true ↔
      ((b.step none).1.position.x ≥ -10 ∧ (b.step none).1.position.y < 400)) := by
  refine ⟨fun w h => step_parent_true_iff b w h, ?_⟩
  simp [BallComponent.step, and_comm]

/-- C3: the reverse loop with in-place removal never reads outside the list
(it returns a result), calls `step` once at every index `n-1, ..., 0` on the
ball originally stored there, and leaves `stepThenFilter`: the stepped states
of exactly the balls whose step returned `true`, in their original order.  A
ball whose stepped `position.y` is at least the parent height is not in the
resulting list. -/
theorem updateBalls_refines (parent : Option ParentSize) (w h : Int)
    (balls : List BallComponent) :
    updateBalls parent balls = some (stepThenFilter parent balls, balls.enum.reverse) ∧
    (∀ b', b' ∈ stepThenFilter parent balls ↔
      ∃ b ∈ balls, (b.step parent).2 = true ∧ (b.step parent).1 = b') ∧
    (∀ b ∈ balls, (h : ℚ) ≤ (b.step (some (w, h))).1.position.y →
      (b.step (some (w, h))).1 ∉ stepThenFilter (some (w, h)) balls) := by
  refine ⟨updateBalls_eq parent balls, mem_stepThenFilter parent balls, ?_⟩
  intro b _ hy hmem
  have := (stepThenFilter_bounds w h balls _ hmem).2.2
  exact absurd hy (not_le.mpr this)

/-- One tick in closed form. -/
theorem timerCallback_eq {σ : Type} (R : RandomSource σ) (g : σ) (s : AnimationDemo) :
    timerCallback R g s =
      some (if (R.nextInt g 100).1 < 4 then
          ({ s with balls := stepThenFilter (some (s.width, s.height)) s.balls ++
              [(BallComponent.construct R (R.nextInt g 100).2 s.ballGeneratorCentre).1] },
            (BallComponent.construct R (R.nextInt g 100).2 s.ballGeneratorCentre).2)
        else
          ({ s with balls := stepThenFilter (some (s.width, s.height)) s.balls },
            (R.nextInt g 100).2)) := by
  unfold timerCallback
  rw [updateBalls_eq]
  by_cases hd : (R.nextInt g 100).1 < 4 <;> simp [hd]

/-- The number of balls a tick spawns, in closed form. -/
theorem spawnedBy_eq {σ : Type} (R : RandomSource σ) (g : σ) (s : AnimationDemo) :
    spawnedBy R g s = some (if (R.nextInt g 100).1 < 4 then 1 else 0) := by
  unfold spawnedBy
  rw [updateBalls_eq, timerCallback_eq]
  by_cases hd : (R.nextInt g 100).1 < 4 <;> simp [hd]

/-- A run of `n` ticks succeeds, and its report has one entry per tick in which
the spawn count is one for a draw below 4 and zero otherwise. -/
theorem runTicks_log {σ : Type} (R : RandomSource σ) (n : Nat) :
    ∀ (g : σ) (s : AnimationDemo), ∃ sf gf log,
      runTicks R n g s = some (sf, gf, log) ∧ log.length = n ∧
      ∀ e ∈ log, e.2 = if e.1 < 4 then 1 else 0 := by
  induction n with
  | zero => intro g s; exact ⟨s, g, [], rfl, rfl, by simp⟩
  | succ n ih =>
    intro g s
    obtain ⟨s', g', htc⟩ : ∃ s' g', timerCallback R g s = some (s', g') := by
      rw [timerCallback_eq]; exact ⟨_, _, rfl⟩
    obtain ⟨sf, gf, log, hrun, hlen, hlog⟩ := ih g' s'
    refine ⟨sf, gf, ((R.nextInt g 100).1, if (R.nextInt g 100).1 < 4 then 1 else 0) :: log,
      ?_, by simp [hlen], ?_⟩
    · simp [runTicks, spawnedBy_eq, htc, hrun]
    · intro e he
      rcases List.mem_cons.1 he with rfl | he
      · rfl
      · exact hlog e he

/-- Summing a report whose entries are one for a draw below 4 and zero
otherwise counts the draws below 4. -/
theorem sum_spawned_eq_count (log : List (Int × Nat))
    (h : ∀ e ∈ log, e.2 = if e.1 < 4 then 1 else 0) :
    (log.map (fun e => e.2)).sum = (log.filter (fun e => decide (e.1 < 4))).length := by
  induction log with
  | nil => rfl
  | cons e log ih =>
    have he := h e (List.mem_cons_self _ _)
    have ih' := ih (fun e' he' => h e' (List.mem_cons_of_mem _ he'))
    by_cases hd : e.1 < 4
    · simp [List.filter_cons, hd, he, ih']; omega
    · simp [List.filter_cons, hd, he, ih']

/-- C4: a tick appends exactly one new ball to the kept balls when its draw
from `nextInt (100)` is below 4 and none otherwise; a run of `n` ticks
succeeds, and the total number of balls spawned equals the number of ticks
whose draw was below 4. -/
theorem spawn_count {σ : Type} (R : RandomSource σ) (n : Nat) (g : σ) (s : AnimationDemo) :
    (∃ s' g', timerCallback R g s = some (s', g') ∧
      s'.balls = stepThenFilter (some (s.width, s.height)) s.balls ++
        (if (R.nextInt g 100).1 < 4 then
          [(BallComponent.construct R (R.nextInt g 100).2 s.ballGeneratorCentre).1]
        else []) ∧
      spawnedBy R g s = some (if (R.nextInt g 100).1 < 4 then 1 else 0)) ∧
    (∃ sf gf log, runTicks R n g s = some (sf, gf, log) ∧ log.length = n ∧
      (log.map (fun e => e.2)).sum = (log.filter (fun e => decide (e.1 < 4))).length) := by
  constructor
  · by_cases hd : (R.nextInt g 100).1 < 4
    · exact ⟨_, _, by rw [timerCallback_eq, if_pos hd], by simp [hd], spawnedBy_eq R g s⟩
    · exact ⟨_, _, by rw [timerCallback_eq, if_neg hd], by simp [hd], spawnedBy_eq R g s⟩
  · obtain ⟨sf, gf, log, hrun, hlen, hlog⟩ := runTicks_log R n g s
    exact ⟨sf, gf, log, hrun, hlen, sum_spawned_eq_count log hlog⟩

/-- The ball built by the constructor: it has already moved by its initial
speed, and its vertical speed has already gained `0.1`. -/
theorem construct_eq {σ : Type} (R : RandomSource σ) (g : σ) (pos : Point) :
    (BallComponent.construct R g pos).1 =
      { position := pos + ⟨(R.nextFloat g).1 * 4 - 2,
                           (R.nextFloat (R.nextFloat g).2).1 * (-6) - 2⟩,
        speed := ⟨(R.nextFloat g).1 * 4 - 2,
                  (R.nextFloat (R.nextFloat g).2).1 * (-6) - 2 + 1 / 10⟩,
        colour := white } := by
  simp [BallComponent.construct, BallComponent.step, gravity]

/-- The constructor consumes two floats of the random source. -/
theorem construct_rng {σ : Type} (R : RandomSource σ) (g : σ) (pos : Point) :
    (BallComponent.construct R g pos).2 = (R.nextFloat (R.nextFloat g).2).2 := by
  simp [BallComponent.construct]

/-- C5 (as stated, refuted): with the draws 3, 500, 500 the tick of the freshly
constructed scene spawns a ball, and the one ball of the resulting list is at
`(310, 305)`, not at the generator centre `(310, 310)`. -/
theorem spawned_ball_off_centre :
    (streamRandom.nextInt [3, 500, 500] 100).1 < 4 ∧
    ∃ s', timerCallback streamRandom [3, 500, 500] AnimationDemo.construct.1 =
        some (s', []) ∧
      s'.balls = [⟨⟨310, 305⟩, ⟨0, -49 / 10⟩, white⟩] ∧
      AnimationDemo.construct.1.ballGeneratorCentre = ⟨310, 310⟩ ∧
      ¬ (∀ b ∈ s'.balls, b.position = AnimationDemo.construct.1.ballGeneratorCentre) := by
  refine ⟨by decide, { AnimationDemo.construct.1 with
    balls := [⟨⟨310, 305⟩, ⟨0, -49 / 10⟩, white⟩] }, ?_, rfl, rfl, ?_⟩
  · rw [timerCallback_eq, if_pos (by decide)]
    simp [construct_eq, construct_rng, stepThenFilter, AnimationDemo.construct, streamRandom,
      Point.ext_iff]
    norm_num
  · simp [AnimationDemo.construct, Point.ext_iff]

/-- C5 (amended): when the draw of a tick is below 4, the tick succeeds and
appends one ball to the kept balls; that ball was constructed at the centre of
the generator bounds and stepped once by its constructor, so its position is
the centre plus the initial speed `(4 f₁ - 2, -6 f₂ - 2)`, where `f₁`, `f₂`
are the next two floats drawn, and its vertical speed is `-6 f₂ - 2 + 0.1`. -/
theorem spawned_ball_position {σ : Type} (R : RandomSource σ) (g : σ) (s : AnimationDemo)
    (hd : (R.nextInt g 100).1 < 4) :
    ∃ s' g' b, timerCallback R g s = some (s', g') ∧
      s'.balls = stepThenFilter (some (s.width, s.height)) s.balls ++ [b] ∧
      b.position = s.ballGeneratorCentre +
        ⟨(R.nextFloat (R.nextInt g 100).2).1 * 4 - 2,
         (R.nextFloat (R.nextFloat (R.nextInt g 100).2).2).1 * (-6) - 2⟩ ∧
      b.speed = ⟨(R.nextFloat (R.nextInt g 100).2).1 * 4 - 2,
         (R.nextFloat (R.nextFloat (R.nextInt g 100).2).2).1 * (-6) - 2 + 1 / 10⟩ := by
  refine ⟨_, _, _, by rw [timerCallback_eq, if_pos hd], rfl, ?_, ?_⟩ <;>
    simp [construct_eq]

/-- Witness for `spawned_ball_position`: the draws 3, 500, 500 on the freshly
constructed scene. -/
theorem spawned_ball_position_witness :
    (streamRandom.nextInt [3, 500, 500] 100).1 < 4 ∧
    ∃ s' g' b, timerCallback streamRandom [3, 500, 500] AnimationDemo.construct.1 =
        some (s', g') ∧
      s'.balls = stepThenFilter (some (AnimationDemo.construct.1.width,
        AnimationDemo.construct.1.height)) AnimationDemo.construct.1.balls ++ [b] ∧
      b.position = AnimationDemo.construct.1.ballGeneratorCentre +
        ⟨(streamRandom.nextFloat (streamRandom.nextInt [3, 500, 500] 100).2).1 * 4 - 2,
         (streamRandom.nextFloat (streamRandom.nextFloat
            (streamRandom.nextInt [3, 500, 500] 100).2).2).1 * (-6) - 2⟩ ∧
      b.speed = ⟨(streamRandom.nextFloat (streamRandom.nextInt [3, 500, 500] 100).2).1 * 4 - 2,
         (streamRandom.nextFloat (streamRandom.nextFloat
            (streamRandom.nextInt [3, 500, 500] 100).2).2).1 * (-6) - 2 + 1 / 10⟩ :=
  ⟨by decide, spawned_ball_position streamRandom [3, 500, 500] AnimationDemo.construct.1
    (by decide)⟩

/-- C6 (as stated, refuted): in a scene of size 300 × 300 whose generator is
centred at `(310, 310)`, the tick with draws 3, 500, 500 leaves a ball at
`(310, 305)` in the list, outside the scene. -/
theorem spawned_ball_out_of_bounds :
    ∃ s', timerCallback streamRandom [3, 500, 500]
        { AnimationDemo.construct.1 with width := 300, height := 300 } = some (s', []) ∧
      s'.balls = [⟨⟨310, 305⟩, ⟨0, -49 / 10⟩, white⟩] ∧
      s'.width = 300 ∧ s'.height = 300 ∧
      ¬ (∀ b ∈ s'.balls,
          0 ≤ b.position.x ∧ b.position.x < (s'.width : ℚ) ∧
          b.position.y < (s'.height : ℚ)) := by
  refine ⟨{ AnimationDemo.construct.1 with
    width := 300, height := 300,
    balls := [⟨⟨310, 305⟩, ⟨0, -49 / 10⟩, white⟩] }, ?_, rfl, rfl, rfl, ?_⟩
  · rw [timerCallback_eq, if_pos (by decide)]
    simp [construct_eq, construct_rng, stepThenFilter, AnimationDemo.construct, streamRandom,
      Point.ext_iff]
    norm_num
  · simp
    norm_num

/-- C6 (amended): a tick succeeds; every ball of the resulting list is a kept
ball or the ball spawned in this tick; every kept ball is inside the scene
(`0 ≤ x < width`, `y < height`), whatever the generator position; the spawned
ball is appended unchecked, and the whole list is inside the scene whenever
the two floats drawn lie in `[0, 1)` and the generator centre `c` satisfies
`2 ≤ c.x`, `c.x + 2 ≤ width` and `c.y < height + 2`. -/
theorem timerCallback_bounds {σ : Type} (R : RandomSource σ) (g : σ) (s : AnimationDemo) :
    ∃ s' g', timerCallback R g s = some (s', g') ∧
      (∀ b ∈ s'.balls, b ∈ stepThenFilter (some (s.width, s.height)) s.balls ∨
        ((R.nextInt g 100).1 < 4 ∧
          b = (BallComponent.construct R (R.nextInt g 100).2 s.ballGeneratorCentre).1)) ∧
      (∀ b ∈ stepThenFilter (some (s.width, s.height)) s.balls,
        0 ≤ b.position.x ∧ b.position.x < (s.width : ℚ) ∧ b.position.y < (s.height : ℚ)) ∧
      (0 ≤ (R.nextFloat (R.nextInt g 100).2).1 ∧ (R.nextFloat (R.nextInt g 100).2).1 < 1 →
       0 ≤ (R.nextFloat (R.nextFloat (R.nextInt g 100).2).2).1 ∧
         (R.nextFloat (R.nextFloat (R.nextInt g 100).2).2).1 < 1 →
       2 ≤ s.ballGeneratorCentre.x ∧ s.ballGeneratorCentre.x + 2 ≤ (s.width : ℚ) →
       s.ballGeneratorCentre.y < (s.height : ℚ) + 2 →
       ∀ b ∈ s'.balls,
        0 ≤ b.position.x ∧ b.position.x < (s.width : ℚ) ∧ b.position.y < (s.height : ℚ)) := by
  have hkept := fun b hb => stepThenFilter_bounds s.width s.height s.balls b hb
  by_cases hd : (R.nextInt g 100).1 < 4
  · refine ⟨_, _, by rw [timerCallback_eq, if_pos hd], ?_, hkept, ?_⟩
    · intro b hb
      rcases List.mem_append.1 hb with hb | hb
      · exact Or.inl hb
      · exact Or.inr ⟨hd, by simpa using hb⟩
    · intro hf1 hf2 hx hy b hb
      rcases List.mem_append.1 hb with hb | hb
      · exact hkept b hb
      · have hb' := List.mem_singleton.1 hb
        subst hb'
        simp only [construct_eq, Point.add_x, Point.add_y]
        refine ⟨by linarith [hf1.1, hx.1], by linarith [hf1.2, hx.2], by linarith [hf2.1]⟩
  · refine ⟨_, _, by rw [timerCallback_eq, if_neg hd], ?_, hkept, ?_⟩
    · intro b hb
      exact Or.inl hb
    · intro _ _ _ _ b hb
      exact hkept b hb

/-- Witness for `timerCallback_bounds`: the freshly constructed 620 × 620 scene
with the generator centred at `(310, 310)` and the draws 3, 500, 500; both
floats are `1/2`. -/
theorem timerCallback_bounds_witness :
    (streamRandom.nextFloat (streamRandom.nextInt [3, 500, 500] 100).2).1 = 1 / 2 ∧
    (streamRandom.nextFloat (streamRandom.nextFloat
      (streamRandom.nextInt [3, 500, 500] 100).2).2).1 = 1 / 2 ∧
    AnimationDemo.construct.1.ballGeneratorCentre = ⟨310, 310⟩ ∧
    ∃ s' g', timerCallback streamRandom [3, 500, 500] AnimationDemo.construct.1 =
        some (s', g') ∧
      ∀ b ∈ s'.balls, 0 ≤ b.position.x ∧
        b.position.x < (AnimationDemo.construct.1.width : ℚ) ∧
        b.position.y < (AnimationDemo.construct.1.height : ℚ) := by
  have hf1 : (streamRandom.nextFloat (streamRandom.nextInt [3, 500, 500] 100).2).1 = 1 / 2 := by
    simp [streamRandom]; norm_num
  have hf2 : (streamRandom.nextFloat (streamRandom.nextFloat
      (streamRandom.nextInt [3, 500, 500] 100).2).2).1 = 1 / 2 := by
    simp [streamRandom]; norm_num
  obtain ⟨s', g', h, _, _, hall⟩ :=
    timerCallback_bounds streamRandom [3, 500, 500] AnimationDemo.construct.1
  refine ⟨hf1, hf2, rfl, s', g', h, hall ?_ ?_ ?_ ?_⟩
  · rw [hf1]; norm_num
  · rw [hf2]; norm_num
  · simp [AnimationDemo.construct]; norm_num
  · simp [AnimationDemo.construct]; norm_num

/-! ### Click handling -/

/-- For a non-negative counter the C++ remainder is the mathematical one. -/
theorem newIndex_eq_emod (i c N : Int) (hi : 0 ≤ i) (hc : 0 ≤ c) (hN : 0 ≤ N) :
    newIndex i c N = (i + 3 * c) % N := by
  unfold newIndex
  exact Int.tmod_eq_emod (by omega) hN

/-- For a counter `c ≥ 0` the slots lie in `[0, N)` and every slot is taken. -/
theorem newIndex_range_surj (N c : Int) (hN : 0 < N) (hc : 0 ≤ c) :
    (∀ i, 0 ≤ i → i < N → 0 ≤ newIndex i c N ∧ newIndex i c N < N) ∧
    (∀ t, 0 ≤ t → t < N → ∃ i, 0 ≤ i ∧ i < N ∧ newIndex i c N = t) := by
  have hN0 : N ≠ 0 := by omega
  refine ⟨fun i hi _ => ?_, fun t ht htN => ?_⟩
  · rw [newIndex_eq_emod i c N hi hc (by omega)]
    exact ⟨Int.emod_nonneg _ hN0, Int.emod_lt_of_pos _ hN⟩
  · refine ⟨(t - 3 * c) % N, Int.emod_nonneg _ hN0, Int.emod_lt_of_pos _ hN, ?_⟩
    rw [newIndex_eq_emod _ c N (Int.emod_nonneg _ hN0) hc (by omega), Int.emod_add_emod]
    have : t - 3 * c + 3 * c = t := by ring
    rw [this, Int.emod_eq_of_lt ht htN]

/-- Whatever the sign of the counter, two buttons of `[0, N)` with the same
truncating remainder are the same button. -/
theorem newIndex_injective (N c i j : Int) (hN : 0 < N) (hi : 0 ≤ i) (hiN : i < N)
    (hj : 0 ≤ j) (hjN : j < N) (h : newIndex i c N = newIndex j c N) : i = j := by
  unfold newIndex at h
  have h1 := Int.tmod_add_tdiv (i + 3 * c) N
  have h2 := Int.tmod_add_tdiv (j + 3 * c) N
  have hd : i - j = N * ((i + 3 * c).tdiv N - (j + 3 * c).tdiv N) := by
    linear_combination h2 - h1 + h
  generalize (i + 3 * c).tdiv N - (j + 3 * c).tdiv N = d at hd
  rcases lt_trichotomy d 0 with hneg | hzero | hpos
  · have : N * d ≤ -N := by nlinarith
    omega
  · subst hzero
    simp at hd
    omega
  · have : N ≤ N * d := by nlinarith
    omega

/-- The loop of `buttonClicked` succeeds when no index overflows. -/
theorem animateAll_eq (c size : Int) (hsize : size ≠ 0) (h3 : fitsInt (3 * c) = true) :
    ∀ is : List Nat, (∀ i ∈ is, fitsInt ((i : Int) + 3 * c) = true) →
      animateAll c size is = some (is.map (fun i => ⟨i, newIndex i c size⟩)) := by
  intro is
  induction is with
  | nil => intro _; rfl
  | cons i is ih =>
    intro h
    have hi := h i (List.mem_cons_self _ _)
    have ih' := ih (fun j hj => h j (List.mem_cons_of_mem _ hj))
    simp [animateAll, h3, hi, hsize, ih']

/-- One click in closed form, absent overflow. -/
theorem buttonClicked_eq (s : AnimationDemo)
    (hlo : INT_MIN ≤ s.cycleCount) (hc : s.cycleCount < INT_MAX)
    (hN : 0 < s.componentsToAnimate.length →
      INT_MIN ≤ 3 * s.cycleCount ∧
      3 * s.cycleCount + ((s.componentsToAnimate.length : Int) - 1) ≤ INT_MAX) :
    buttonClicked s = some ({ s with cycleCount := s.cycleCount + 1 },
      (List.range s.componentsToAnimate.length).map
        (fun i => ⟨i, newIndex i s.cycleCount s.componentsToAnimate.length⟩)) := by
  have hinc : fitsInt (s.cycleCount + 1) = true := by
    simp only [fitsInt, INT_MIN, INT_MAX, Bool.and_eq_true, decide_eq_true_eq] at *
    omega
  have hall : animateAll s.cycleCount s.componentsToAnimate.length
      (List.range s.componentsToAnimate.length) =
      some ((List.range s.componentsToAnimate.length).map
        (fun i => ⟨i, newIndex i s.cycleCount s.componentsToAnimate.length⟩)) := by
    rcases Nat.eq_zero_or_pos s.componentsToAnimate.length with h0 | hpos
    · rw [h0]; rfl
    · obtain ⟨h1, h2⟩ := hN hpos
      apply animateAll_eq
      · omega
      · simp only [fitsInt, INT_MIN, INT_MAX, Bool.and_eq_true, decide_eq_true_eq] at *
        omega
      · intro i hi
        have hi' := List.mem_range.1 hi
        simp only [fitsInt, INT_MIN, INT_MAX, Bool.and_eq_true, decide_eq_true_eq] at *
        omega
  simp [buttonClicked, hall, hinc]

/-- C7 (as stated, refuted): with the 11 buttons and `cycleCount = -1` nothing
overflows, the click succeeds and button 0 is given `newIndex = -3`, outside
`[0, 11)`; with `cycleCount = 715827880` the sum `i + 3 * cycleCount`
overflows `int` and the click assigns no slots at all. -/
theorem buttonClicked_negative_slot :
    (∃ s' reqs, buttonClicked { AnimationDemo.construct.1 with cycleCount := -1 } =
        some (s', reqs) ∧
      reqs[0]? = some ⟨0, -3⟩ ∧
      ¬ (∀ r ∈ reqs, 0 ≤ r.newIndex ∧ r.newIndex < 11)) ∧
    buttonClicked { AnimationDemo.construct.1 with cycleCount := 715827880 } = none := by
  constructor
  · refine ⟨_, _, buttonClicked_eq { AnimationDemo.construct.1 with cycleCount := -1 }
      (by decide) (by decide) (fun _ => by decide), by decide, fun h => ?_⟩
    have h0 := (h ⟨0, -3⟩ (by decide)).1
    revert h0
    decide
  · decide

/-- C7 (amended): for a scene with at least one button and an `int` counter
for which no `i + 3 * cycleCount` overflows, the click succeeds and requests
for button `i` the slot `(i + 3 * cycleCount) % N`; no two buttons are given
the same slot; and when `cycleCount ≥ 0` every slot lies in `[0, N)` and
every slot of `[0, N)` is given to a button, so the assignment is a bijection
of `[0, N)`. -/
theorem buttonClicked_slots (s : AnimationDemo)
    (hN : 0 < s.componentsToAnimate.length)
    (hlo : INT_MIN ≤ 3 * s.cycleCount)
    (hhi : 3 * s.cycleCount + ((s.componentsToAnimate.length : Int) - 1) ≤ INT_MAX) :
    ∃ s' reqs, buttonClicked s = some (s', reqs) ∧
      reqs = (List.range s.componentsToAnimate.length).map
        (fun i => ⟨i, newIndex i s.cycleCount s.componentsToAnimate.length⟩) ∧
      (∀ r1 ∈ reqs, ∀ r2 ∈ reqs, r1.newIndex = r2.newIndex → r1.component = r2.component) ∧
      (0 ≤ s.cycleCount →
        (∀ r ∈ reqs, 0 ≤ r.newIndex ∧ r.newIndex < (s.componentsToAnimate.length : Int)) ∧
        (∀ t : Int, 0 ≤ t → t < (s.componentsToAnimate.length : Int) →
          ∃ r ∈ reqs, r.newIndex = t)) := by
  have hNpos : (0 : Int) < (s.componentsToAnimate.length : Int) := by exact_mod_cast hN
  have hclick := buttonClicked_eq s
    (by simp only [INT_MIN, INT_MAX] at *; omega)
    (by simp only [INT_MIN, INT_MAX] at *; omega)
    (fun _ => ⟨hlo, hhi⟩)
  refine ⟨_, _, hclick, rfl, ?_, fun hc => ⟨?_, ?_⟩⟩
  · intro r1 h1 r2 h2 h
    obtain ⟨i, hi, rfl⟩ := List.mem_map.1 h1
    obtain ⟨j, hj, rfl⟩ := List.mem_map.1 h2
    have hi' := List.mem_range.1 hi
    have hj' := List.mem_range.1 hj
    have := newIndex_injective _ s.cycleCount (i : Int) (j : Int) hNpos
      (by omega) (by omega) (by omega) (by omega) h
    exact_mod_cast this
  · intro r hr
    obtain ⟨i, hi, rfl⟩ := List.mem_map.1 hr
    have hi' := List.mem_range.1 hi
    exact (newIndex_range_surj _ s.cycleCount hNpos hc).1 (i : Int) (by omega) (by omega)
  · intro t ht htN
    obtain ⟨i, hi0, hiN, hit⟩ := (newIndex_range_surj _ s.cycleCount hNpos hc).2 t ht htN
    refine ⟨⟨i.toNat, newIndex i s.cycleCount s.componentsToAnimate.length⟩, ?_, hit⟩
    refine List.mem_map.2 ⟨i.toNat, List.mem_range.2 (by omega), ?_⟩
    rw [Int.toNat_of_nonneg hi0]

/-- Witness for `buttonClicked_slots`: the freshly constructed scene, with 11
buttons and `cycleCount = 2`. -/
theorem buttonClicked_slots_witness :
    0 < AnimationDemo.construct.1.componentsToAnimate.length ∧
    INT_MIN ≤ 3 * AnimationDemo.construct.1.cycleCount ∧
    3 * AnimationDemo.construct.1.cycleCount +
      ((AnimationDemo.construct.1.componentsToAnimate.length : Int) - 1) ≤ INT_MAX ∧
    0 ≤ AnimationDemo.construct.1.cycleCount ∧
    ∃ s' reqs, buttonClicked AnimationDemo.construct.1 = some (s', reqs) ∧
      (∀ r1 ∈ reqs, ∀ r2 ∈ reqs, r1.newIndex = r2.newIndex → r1.component = r2.component) ∧
      (∀ r ∈ reqs, 0 ≤ r.newIndex ∧
        r.newIndex < (AnimationDemo.construct.1.componentsToAnimate.length : Int)) ∧
      (∀ t : Int, 0 ≤ t →
        t < (AnimationDemo.construct.1.componentsToAnimate.length : Int) →
        ∃ r ∈ reqs, r.newIndex = t) := by
  obtain ⟨s', reqs, h, _, hinj, hrest⟩ :=
    buttonClicked_slots AnimationDemo.construct.1 (by decide) (by decide) (by decide)
  exact ⟨by decide, by decide, by decide, by decide, s', reqs, h, hinj,
    (hrest (by decide)).1, (hrest (by decide)).2⟩

/-- C8 (as stated, refuted): with no buttons and `cycleCount = INT_MAX` the
increment `cycleCount++` overflows; no state with `cycleCount + 1` results. -/
theorem buttonClicked_overflow :
    buttonClicked { AnimationDemo.construct.1 with
        componentsToAnimate := [], cycleCount := INT_MAX } = none ∧
    fitsInt (INT_MAX + 1) = false := by
  constructor
  · simp [buttonClicked, animateAll, fitsInt, INT_MAX, INT_MIN]
  · decide

/-- C8 (amended): for every number of buttons (zero included) and every `int`
value of `cycleCount` for which nothing overflows (`cycleCount < INT_MAX`
and, when there is a button, `3 * cycleCount` and
`3 * cycleCount + (size - 1)` in range), a click succeeds, sends one request
per button and changes nothing of the scene but `cycleCount`, which becomes
`cycleCount + 1`. -/
theorem buttonClicked_increments (s : AnimationDemo)
    (hlo : INT_MIN ≤ s.cycleCount) (hc : s.cycleCount < INT_MAX)
    (hN : 0 < s.componentsToAnimate.length →
      INT_MIN ≤ 3 * s.cycleCount ∧
      3 * s.cycleCount + ((s.componentsToAnimate.length : Int) - 1) ≤ INT_MAX) :
    ∃ s' reqs, buttonClicked s = some (s', reqs) ∧
      s'.cycleCount = s.cycleCount + 1 ∧
      s'.componentsToAnimate = s.componentsToAnimate ∧
      s' = { s with cycleCount := s.cycleCount + 1 } ∧
      reqs.length = s.componentsToAnimate.length :=
  ⟨_, _, buttonClicked_eq s hlo hc hN, rfl, rfl, rfl, by simp⟩

/-- Witness for `buttonClicked_increments`: the freshly constructed scene, with
11 buttons and `cycleCount = 2`. -/
theorem buttonClicked_increments_witness :
    INT_MIN ≤ AnimationDemo.construct.1.cycleCount ∧
    AnimationDemo.construct.1.cycleCount < INT_MAX ∧
    (INT_MIN ≤ 3 * AnimationDemo.construct.1.cycleCount ∧
      3 * AnimationDemo.construct.1.cycleCount +
        ((AnimationDemo.construct.1.componentsToAnimate.length : Int) - 1) ≤ INT_MAX) ∧
    ∃ s' reqs, buttonClicked AnimationDemo.construct.1 = some (s', reqs) ∧
      s'.cycleCount = AnimationDemo.construct.1.cycleCount + 1 ∧
      s'.componentsToAnimate = AnimationDemo.construct.1.componentsToAnimate ∧
      s' = { AnimationDemo.construct.1 with
              cycleCount := AnimationDemo.construct.1.cycleCount + 1 } ∧
      reqs.length = AnimationDemo.construct.1.componentsToAnimate.length :=
  ⟨by decide, by decide, by decide,
    buttonClicked_increments AnimationDemo.construct.1 (by decide) (by decide)
      (fun _ => by decide)⟩

/-- Repeated clicks add to `cycleCount`, absent overflow: the last of the `n`
clicks runs with the counter at `cycleCount + n - 1`. -/
theorem clicks_eq (n : Nat) :
    ∀ s : AnimationDemo, 0 ≤ s.cycleCount →
      3 * (s.cycleCount + n) + s.componentsToAnimate.length ≤ INT_MAX + 4 →
      clicks n s = some { s with cycleCount := s.cycleCount + n } := by
  induction n with
  | zero => intro s _ _; simp [clicks]
  | succ n ih =>
    intro s h0 hmax
    have hstep := buttonClicked_eq s (by simp only [INT_MIN]; omega)
      (by simp only [INT_MAX] at *; omega)
      (fun _ => by simp only [INT_MIN, INT_MAX] at *; omega)
    have hrest := ih { s with cycleCount := s.cycleCount + 1 } (by simp; omega)
      (by simp only [INT_MAX] at *; push_cast at hmax; omega)
    simp only [clicks, hstep, hrest]
    simp only [Nat.cast_add, Nat.cast_one, Option.some.injEq]
    congr 1
    omega

/-- C9: the constructed scene has 11 buttons, `cycleCount = 2` and initial
layout slots `(i + 3) mod 11`; absent `int` overflow, the first `k - 1` clicks
succeed and leave `cycleCount = k + 1`, and the `k`-th click succeeds and
requests for button `i` the slot `(i + 3 * (k + 1)) mod 11`; for 11 buttons,
`cycleCount = 2` and `i = 0` the computed `newIndex` is 6. -/
theorem kth_click (k : Nat) (hk : 1 ≤ k) (hov : 3 * ((k : Int) + 1) + 10 ≤ INT_MAX) :
    AnimationDemo.construct.1.componentsToAnimate.length = 11 ∧
    AnimationDemo.construct.1.cycleCount = 2 ∧
    AnimationDemo.construct.2 =
      (List.range 11).map (fun i => ⟨i, ((i : Int) + 3) % 11⟩) ∧
    (∃ s s' reqs, clicks (k - 1) AnimationDemo.construct.1 = some s ∧
      s.cycleCount = (k : Int) + 1 ∧
      buttonClicked s = some (s', reqs) ∧
      reqs = (List.range 11).map (fun i => ⟨i, ((i : Int) + 3 * ((k : Int) + 1)) % 11⟩)) ∧
    newIndex 0 2 11 = 6 := by
  have hlen : AnimationDemo.construct.1.componentsToAnimate.length = 11 := by decide
  have hcc : AnimationDemo.construct.1.cycleCount = 2 := rfl
  refine ⟨hlen, hcc, by decide, ?_, by decide⟩
  obtain ⟨m, rfl⟩ : ∃ m, k = m + 1 := ⟨k - 1, by omega⟩
  have hov' : 3 * ((m : Int) + 1 + 1) + 10 ≤ 2147483647 := by
    simpa [INT_MAX] using hov
  have hpre := clicks_eq m AnimationDemo.construct.1 (by rw [hcc]; decide)
    (by rw [hcc, hlen]; simp only [INT_MAX]; push_cast; omega)
  have hclick := buttonClicked_eq
    { AnimationDemo.construct.1 with cycleCount := AnimationDemo.construct.1.cycleCount + m }
    (by simp only [hcc, INT_MIN]; omega)
    (by simp only [hcc, INT_MAX]; omega)
    (fun _ => by
      simp only [hcc, hlen, INT_MIN, INT_MAX]
      push_cast
      omega)
  refine ⟨_, _, _, by simpa using hpre, ?_, hclick, ?_⟩
  · simp only [hcc]; push_cast; ring
  · simp only [hcc, hlen]
    apply List.map_congr_left
    intro i _
    have h := newIndex_eq_emod (i : Int) (2 + (m : Int)) 11 (by omega) (by omega) (by decide)
    simp only [Nat.cast_ofNat, h]
    congr 2
    push_cast
    ring

/-- Witness for `kth_click`: the third click, made with `cycleCount = 4`. -/
theorem kth_click_witness :
    1 ≤ 3 ∧ 3 * (((3 : Nat) : Int) + 1) + 10 ≤ INT_MAX ∧
    (AnimationDemo.construct.1.componentsToAnimate.length = 11 ∧
     AnimationDemo.construct.1.cycleCount = 2 ∧
     AnimationDemo.construct.2 =
       (List.range 11).map (fun i => ⟨i, ((i : Int) + 3) % 11⟩) ∧
     (∃ s s' reqs, clicks (3 - 1) AnimationDemo.construct.1 = some s ∧
       s.cycleCount = ((3 : Nat) : Int) + 1 ∧
       buttonClicked s = some (s', reqs) ∧
       reqs = (List.range 11).map
         (fun i => ⟨i, ((i : Int) + 3 * (((3 : Nat) : Int) + 1)) % 11⟩)) ∧
     newIndex 0 2 11 = 6) :=
  ⟨by decide, by decide, kth_click 3 (by decide) (by decide)⟩

/-- The slot of the click that follows `n` clicks, absent overflow. -/
theorem slotAtClick_eq (s : AnimationDemo) (i n : Nat)
    (hi : i < s.componentsToAnimate.length) (hc : 0 ≤ s.cycleCount)
    (hov : 3 * (s.cycleCount + n) + ((s.componentsToAnimate.length : Int) - 1) ≤ INT_MAX) :
    slotAtClick n s i =
      some (((i : Int) + 3 * (s.cycleCount + n)) % (s.componentsToAnimate.length : Int)) := by
  have hpre := clicks_eq n s hc (by simp only [INT_MAX] at *; omega)
  have hclick := buttonClicked_eq { s with cycleCount := s.cycleCount + n }
    (by simp only [INT_MIN]; omega)
    (by simp only [INT_MAX] at *; omega)
    (fun _ => by simp only [INT_MIN, INT_MAX] at *; omega)
  have hidx := newIndex_eq_emod (i : Int) (s.cycleCount + n) s.componentsToAnimate.length
    (by omega) (by omega) (by omega)
  simp only [slotAtClick, hpre, hclick]
  simp [List.getElem?_range hi, hidx]

/-- A click without result ends every longer run. -/
theorem clicks_succ_none (n : Nat) :
    ∀ s s' : AnimationDemo, clicks n s = some s' → buttonClicked s' = none →
      clicks (n + 1) s = none := by
  induction n with
  | zero =>
    intro s s' h hnone
    simp only [clicks, Option.some.injEq] at h
    subst h
    simp [clicks, hnone]
  | succ n ih =>
    intro s s' h hnone
    rw [clicks] at h ⊢
    cases hb : buttonClicked s with
    | none => rfl
    | some r =>
      obtain ⟨s1, reqs⟩ := r
      rw [hb] at h
      exact ih s1 s' h hnone

/-- C10 (as stated, refuted): the fresh scene reaches `cycleCount = 715827880`
after 715827878 clicks, and there `8 + 3 * cycleCount` overflows `int`: the
next click has no result and assigns button 0 no slot, and neither does the
click after it. -/
theorem slotAtClick_overflow :
    clicks 715827878 AnimationDemo.construct.1 =
      some { AnimationDemo.construct.1 with cycleCount := 715827880 } ∧
    buttonClicked { AnimationDemo.construct.1 with cycleCount := 715827880 } = none ∧
    slotAtClick 715827878 AnimationDemo.construct.1 0 = none ∧
    slotAtClick (715827878 + 1) AnimationDemo.construct.1 0 = none := by
  have hreach : clicks 715827878 AnimationDemo.construct.1 =
      some { AnimationDemo.construct.1 with cycleCount := 715827880 } := by
    have h := clicks_eq 715827878 AnimationDemo.construct.1 (by decide) (by decide)
    rw [h]
    rfl
  have hnone : buttonClicked { AnimationDemo.construct.1 with cycleCount := 715827880 } =
      none := by decide
  have hnext := clicks_succ_none 715827878 _ _ hreach hnone
  refine ⟨hreach, hnone, ?_, ?_⟩
  · rw [slotAtClick, hreach]
    simp only [hnone]
  · rw [slotAtClick, hnext]

/-- C10 (amended): in a scene with 11 buttons and `cycleCount = c ≥ 0`, take a
run of clicks free of `int` overflow (counters `c, ..., c + n` with
`3 * (c + n) + 10 ≤ INT_MAX`).  Every click of the run succeeds and the click
made at counter `c + m` gives button `i` the slot `(i + 3 * (c + m)) mod 11`;
the slot of a click differs from the slot of the click before it; the slots
of two clicks of the run coincide exactly when their counters are congruent
modulo 11; and any 11 consecutive clicks of the run send button `i` to every
one of the 11 slots. -/
theorem clicks_visit_all_slots (s : AnimationDemo) (i n : Nat)
    (hlen : s.componentsToAnimate.length = 11) (hi : i < 11) (hc : 0 ≤ s.cycleCount)
    (hov : 3 * (s.cycleCount + n) + 10 ≤ INT_MAX) :
    (∀ m, m ≤ n →
      slotAtClick m s i = some (((i : Int) + 3 * (s.cycleCount + m)) % 11)) ∧
    (∀ m, m + 1 ≤ n → slotAtClick (m + 1) s i ≠ slotAtClick m s i) ∧
    (∀ m m', m ≤ n → m' ≤ n →
      (slotAtClick m s i = slotAtClick m' s i ↔
        (s.cycleCount + m) % 11 = (s.cycleCount + m') % 11)) ∧
    (∀ m, m + 10 ≤ n → ∀ t : Int, 0 ≤ t → t < 11 →
      ∃ j, j ≤ 10 ∧ slotAtClick (m + j) s i = some t) := by
  have hslot : ∀ m, m ≤ n →
      slotAtClick m s i = some (((i : Int) + 3 * (s.cycleCount + m)) % 11) := by
    intro m hm
    have h := slotAtClick_eq s i m (by omega) hc
      (by rw [hlen]; simp only [INT_MAX] at *; push_cast; omega)
    rw [hlen] at h
    simpa using h
  refine ⟨hslot, ?_, ?_, ?_⟩
  · intro m hm
    rw [hslot m (by omega), hslot (m + 1) hm]
    simp only [ne_eq, Option.some.injEq]
    push_cast
    omega
  · intro m m' hm hm'
    rw [hslot m hm, hslot m' hm']
    simp only [Option.some.injEq]
    omega
  · intro m hm t ht ht'
    refine ⟨((4 * (t - i - 3 * (s.cycleCount + m))) % 11).toNat, by omega, ?_⟩
    rw [hslot _ (by omega)]
    simp only [Option.some.injEq]
    push_cast
    omega

/-- Witness for `clicks_visit_all_slots`: the freshly constructed scene, button
0 and a run of 21 clicks. -/
theorem clicks_visit_all_slots_witness :
    AnimationDemo.construct.1.componentsToAnimate.length = 11 ∧ 0 < 11 ∧
    0 ≤ AnimationDemo.construct.1.cycleCount ∧
    3 * (AnimationDemo.construct.1.cycleCount + ((20 : Nat) : Int)) + 10 ≤ INT_MAX ∧
    ((∀ m, m ≤ 20 → slotAtClick m AnimationDemo.construct.1 0 =
        some ((((0 : Nat) : Int) + 3 * (AnimationDemo.construct.1.cycleCount + m)) % 11)) ∧
     (∀ m, m + 1 ≤ 20 → slotAtClick (m + 1) AnimationDemo.construct.1 0 ≠
        slotAtClick m AnimationDemo.construct.1 0) ∧
     (∀ m m', m ≤ 20 → m' ≤ 20 →
       (slotAtClick m AnimationDemo.construct.1 0 =
          slotAtClick m' AnimationDemo.construct.1 0 ↔
         (AnimationDemo.construct.1.cycleCount + m) % 11 =
           (AnimationDemo.construct.1.cycleCount + m') % 11)) ∧
     (∀ m, m + 10 ≤ 20 → ∀ t : Int, 0 ≤ t → t < 11 →
       ∃ j, j ≤ 10 ∧ slotAtClick (m + j) AnimationDemo.construct.1 0 = some t)) :=
  ⟨by decide, by decide, by decide, by decide,
    clicks_visit_all_slots AnimationDemo.construct.1 0 20 (by decide) (by decide)
      (by decide) (by decide)⟩

end JuceDemo
